import Mathlib

/-!
Shallow embedding of the core of the qr-menu-app repository
(order store & state machine, stats aggregator, subscription gate,
realtime broadcast hub) together with theorems settling the frozen
claims about its natural-language specification.

Modelling conventions:
* JavaScript numbers are modelled as exact rationals (`ℚ`); the IEEE
  `NaN` value produced by `parseFloat` on a non-numeric string is
  modelled as `none` in `JsNum := Option ℚ`, and arithmetic on `JsNum`
  propagates `none` exactly as JS arithmetic propagates `NaN`.
* Millisecond timestamps (`Date.now()`, `getTime()`) are `ℤ`.
* JS `Map` objects are association lists in insertion order
  (`Map.set` on a fresh key appends; on an existing key it updates in
  place; `Array.from(map.values())` is the value list in that order).
* `x || y` on strings/nullable values is `jsOrElse` / `jsOrDefault`
  (the empty string is falsy).
-/

namespace QrMenu

/-- A JS number that may be `NaN` (from a failed `parseFloat`). -/
abbrev JsNum := Option ℚ

/-- JS `+` with NaN propagation. -/
def jadd : JsNum → JsNum → JsNum
  | some a, some b => some (a + b)
  | _, _ => none

/-- JS `*` with NaN propagation. -/
def jmul : JsNum → JsNum → JsNum
  | some a, some b => some (a * b)
  | _, _ => none

/-- Multiply a possibly-NaN value by an ordinary number. -/
def jmulNum (x : JsNum) (c : ℚ) : JsNum := x.map (fun v => v * c)

/-- Divide a possibly-NaN value by an ordinary (non-zero) number. -/
def jdivNum (x : JsNum) (c : ℚ) : JsNum := x.map (fun v => v / c)

/-- `x || d` for an optional string field: absent or empty falls back. -/
def jsOrDefault (x : Option String) (d : String) : String :=
  match x with
  | some s => if s = "" then d else s
  | none => d

/-- `x || null` for an optional string field: the empty string becomes null. -/
def jsOrElse (x : Option String) : Option String :=
  match x with
  | some s => if s = "" then none else some s
  | none => none

/-- Decimal-digit prefix scanner: accumulated value, number of digits
consumed, and the unconsumed remainder. -/
def parseDigitsAux : List Char → ℕ → ℕ → ℕ × ℕ × List Char
  | [], acc, k => (acc, k, [])
  | c :: cs, acc, k =>
    if c.isDigit then parseDigitsAux cs (acc * 10 + (c.toNat - 48)) (k + 1)
    else (acc, k, c :: cs)

/-- JS `parseFloat` on the (unsigned, non-exponent) decimal strings this
system stores: parses the longest numeric prefix `digits[.digits]`, and
returns `none` (NaN) when no digit is found. -/
def parseFloat (s : String) : JsNum :=
  let p := parseDigitsAux s.data 0 0
  match p.2.2 with
  | '.' :: rest2 =>
    let q := parseDigitsAux rest2 0 0
    if p.2.1 = 0 ∧ q.2.1 = 0 then none
    else some ((p.1 : ℚ) + (q.1 : ℚ) / (10 : ℚ) ^ q.2.1)
  | _ => if p.2.1 = 0 then none else some ((p.1 : ℚ))

/-- One line of a cart as consumed by `calculateOrderTotal`
(`{ price: string; quantity: number }`). -/
structure PricedItem where
  price : String
  quantity : ℚ
deriving DecidableEq

/-- Result record of `calculateOrderTotal` (client/src/lib/utils.ts). -/
structure OrderTotals where
  subtotal : JsNum
  serviceChargeAmount : JsNum
  gstAmount : JsNum
  total : JsNum
deriving DecidableEq

/-- `calculateOrderTotal` from client/src/lib/utils.ts (defaults
`serviceCharge = 10`, `gst = 5` are passed explicitly here). -/
def calculateOrderTotal (items : List PricedItem) (serviceCharge gst : ℚ) : OrderTotals :=
  let subtotal := items.foldl
    (fun sum item => jadd sum (jmul (parseFloat item.price) (some item.quantity))) (some 0)
  let serviceChargeAmount := jdivNum (jmulNum subtotal serviceCharge) 100
  let gstAmount := jdivNum (jmulNum (jadd subtotal serviceChargeAmount) gst) 100
  let total := jadd (jadd subtotal serviceChargeAmount) gstAmount
  { subtotal := subtotal
    serviceChargeAmount := serviceChargeAmount
    gstAmount := gstAmount
    total := total }

/-- The spec's `subtotal = Σ(price × quantity)` over the parsed prices. -/
def specSubtotal (items : List PricedItem) : ℚ :=
  (items.map (fun i => ((parseFloat i.price).getD 0) * i.quantity)).sum

/-- `'0'`-based digit character (`digitChar d = '0'` for `d = 0`, …). -/
def digitChar (d : ℕ) : Char := Char.ofNat (48 + d)

/-- Fuel-driven decimal digit emitter (most significant first); the fuel
argument makes it kernel-computable. -/
def natReprAux : ℕ → ℕ → List Char
  | 0, _ => []
  | _ + 1, 0 => []
  | fuel + 1, n + 1 => natReprAux fuel ((n + 1) / 10) ++ [digitChar ((n + 1) % 10)]

/-- Decimal rendering of a natural number, as JS template literals render
non-negative integers. -/
def natRepr (n : ℕ) : String := if n = 0 then "0" else ⟨natReprAux n n⟩

/-- Decimal rendering of an integer, as JS template literals render it
(`-0` does not exist in `ℤ`, matching the fact that template interpolation
renders JS `-0` as `"0"`). -/
def intRepr (t : ℤ) : String := if t < 0 then "-" ++ natRepr t.natAbs else natRepr t.natAbs

/-- The order number built by `MemStorage.createOrder`:
`` `ORD-${Date.now()}-${id}` ``. -/
def mkOrderNumber (nowMs : ℤ) (id : ℕ) : String :=
  "ORD-" ++ intRepr nowMs ++ "-" ++ natRepr id

/-- The chars after the last `'-'` of a string (used to re-extract the id
suffix of an order number when proving uniqueness). -/
def afterLastDash (s : List Char) : List Char :=
  (s.reverse.takeWhile (fun c => decide (c ≠ '-'))).reverse

/-- JS `Map.get`: the value at the (unique) occurrence of a key. -/
def mapGet {κ α : Type} [DecidableEq κ] (m : List (κ × α)) (k : κ) : Option α :=
  match m with
  | [] => none
  | p :: rest => if p.1 = k then some p.2 else mapGet rest k

/-- JS `Map.set`: update in place when the key is present (JS `Map`
preserves insertion order on update), append otherwise. -/
def mapSet {κ α : Type} [DecidableEq κ] (m : List (κ × α)) (k : κ) (v : α) : List (κ × α) :=
  match m with
  | [] => [(k, v)]
  | p :: rest => if p.1 = k then (k, v) :: rest else p :: mapSet rest k v

/-- JS `Array.from(map.values())`: the values in insertion order. -/
def mapValues {κ α : Type} (m : List (κ × α)) : List α := m.map Prod.snd

/-- A stored line item of an order (shared/schema.ts `orders.items`). -/
structure OrderItem where
  id : ℕ
  name : String
  price : String
  quantity : ℚ
  total : String
deriving DecidableEq

/-- A persisted order record (shared/schema.ts `orders`). -/
structure StoredOrder where
  id : ℕ
  restaurantId : ℕ
  orderNumber : String
  tableNumber : Option String
  orderType : String
  status : String
  items : List OrderItem
  subtotal : String
  serviceCharge : String
  gst : String
  total : String
  customerName : Option String
  customerPhone : Option String
  notes : Option String
  createdAt : ℤ
  updatedAt : ℤ
deriving DecidableEq

/-- An input accepted by `insertOrderSchema` (which omits only `id`,
`orderNumber`, `createdAt`, `updatedAt` from the `orders` table; in
particular a caller may supply `status`).  Optional fields with column
defaults are `Option`s. -/
structure InsertOrder where
  restaurantId : ℕ
  tableNumber : Option String
  orderType : String
  status : Option String
  items : List OrderItem
  subtotal : String
  serviceCharge : Option String
  gst : Option String
  total : String
  customerName : Option String
  customerPhone : Option String
  notes : Option String
deriving DecidableEq

/-- A persisted restaurant/tenant record (shared/schema.ts `restaurants`). -/
structure Restaurant where
  id : ℕ
  name : String
  slug : String
  description : Option String
  address : Option String
  phone : Option String
  email : Option String
  logo : Option String
  primaryColor : String
  secondaryColor : String
  accentColor : String
  tableCount : ℕ
  serviceCharge : String
  gst : String
  orderModes : List String
  isActive : Bool
  trialStartDate : Option ℤ
  subscriptionEndDate : Option ℤ
  planType : String
  monthlyRate : Option String
  createdAt : Option ℤ
  updatedAt : Option ℤ
deriving DecidableEq

/-- A `Partial<InsertRestaurant>` update object: absent fields keep the
existing value under object spread. -/
structure RestaurantPatch where
  name : Option String
  slug : Option String
  description : Option (Option String)
  address : Option (Option String)
  phone : Option (Option String)
  email : Option (Option String)
  logo : Option (Option String)
  primaryColor : Option String
  secondaryColor : Option String
  accentColor : Option String
  tableCount : Option ℕ
  serviceCharge : Option String
  gst : Option String
  orderModes : Option (List String)
  isActive : Option Bool
  trialStartDate : Option (Option ℤ)
  subscriptionEndDate : Option (Option ℤ)
  planType : Option String
  monthlyRate : Option (Option String)
  createdAt : Option (Option ℤ)
  updatedAt : Option (Option ℤ)
deriving DecidableEq

/-- The patch `{}` (no field present). -/
def emptyRestaurantPatch : RestaurantPatch :=
  { name := none, slug := none, description := none, address := none, phone := none,
    email := none, logo := none, primaryColor := none, secondaryColor := none,
    accentColor := none, tableCount := none, serviceCharge := none, gst := none,
    orderModes := none, isActive := none, trialStartDate := none,
    subscriptionEndDate := none, planType := none, monthlyRate := none,
    createdAt := none, updatedAt := none }

/-- `{ ...existing, ...patch }` (MemStorage.updateRestaurant). -/
def mergeRestaurant (existing : Restaurant) (p : RestaurantPatch) : Restaurant :=
  { id := existing.id
    name := p.name.getD existing.name
    slug := p.slug.getD existing.slug
    description := p.description.getD existing.description
    address := p.address.getD existing.address
    phone := p.phone.getD existing.phone
    email := p.email.getD existing.email
    logo := p.logo.getD existing.logo
    primaryColor := p.primaryColor.getD existing.primaryColor
    secondaryColor := p.secondaryColor.getD existing.secondaryColor
    accentColor := p.accentColor.getD existing.accentColor
    tableCount := p.tableCount.getD existing.tableCount
    serviceCharge := p.serviceCharge.getD existing.serviceCharge
    gst := p.gst.getD existing.gst
    orderModes := p.orderModes.getD existing.orderModes
    isActive := p.isActive.getD existing.isActive
    trialStartDate := p.trialStartDate.getD existing.trialStartDate
    subscriptionEndDate := p.subscriptionEndDate.getD existing.subscriptionEndDate
    planType := p.planType.getD existing.planType
    monthlyRate := p.monthlyRate.getD existing.monthlyRate
    createdAt := p.createdAt.getD existing.createdAt
    updatedAt := p.updatedAt.getD existing.updatedAt }

/-- The in-memory store (the tables and id counters the claims touch;
the user/menu/OTP tables play no role in any claim). -/
structure MemStorage where
  restaurants : List (ℕ × Restaurant)
  orders : List (ℕ × StoredOrder)
  currentRestaurantId : ℕ
  currentOrderId : ℕ
deriving DecidableEq

/-- `MemStorage.createOrder` (src/unnamed/part_006): takes the current
clock (`Date.now()` / `new Date()`) as a parameter; assigns the next id,
builds `` `ORD-${Date.now()}-${id}` ``, applies the `|| "pending"` /
`|| "0.00"` / `|| null` fallbacks, and persists the caller-supplied money
fields verbatim. -/
def MemStorage.createOrder (st : MemStorage) (nowMs : ℤ) (orderData : InsertOrder) :
    StoredOrder × MemStorage :=
  let id := st.currentOrderId
  let order : StoredOrder :=
    { id := id
      restaurantId := orderData.restaurantId
      orderNumber := mkOrderNumber nowMs id
      tableNumber := jsOrElse orderData.tableNumber
      orderType := orderData.orderType
      status := jsOrDefault orderData.status "pending"
      items := orderData.items
      subtotal := orderData.subtotal
      serviceCharge := jsOrDefault orderData.serviceCharge "0.00"
      gst := jsOrDefault orderData.gst "0.00"
      total := orderData.total
      customerName := jsOrElse orderData.customerName
      customerPhone := jsOrElse orderData.customerPhone
      notes := jsOrElse orderData.notes
      createdAt := nowMs
      updatedAt := nowMs }
  (order, { st with orders := mapSet st.orders id order, currentOrderId := id + 1 })

/-- `MemStorage.updateOrderStatus` (src/unnamed/part_006): no transition
validation — whatever status string is passed is stored. -/
def MemStorage.updateOrderStatus (st : MemStorage) (nowMs : ℤ) (id : ℕ) (status : String) :
    Option StoredOrder × MemStorage :=
  match mapGet st.orders id with
  | none => (none, st)
  | some order =>
    let updated := { order with status := status, updatedAt := nowMs }
    (some updated, { st with orders := mapSet st.orders id updated })

/-- `MemStorage.updateRestaurant` (src/unnamed/part_006):
`{ ...existing, ...restaurant }`. -/
def MemStorage.updateRestaurant (st : MemStorage) (id : ℕ) (p : RestaurantPatch) :
    Option Restaurant × MemStorage :=
  match mapGet st.restaurants id with
  | none => (none, st)
  | some existing =>
    let updated := mergeRestaurant existing p
    (some updated, { st with restaurants := mapSet st.restaurants id updated })

/-- `MemStorage.getTodayOrders`: the tenant's orders created at or after
local midnight (midnight passed as a millisecond timestamp). -/
def MemStorage.getTodayOrders (st : MemStorage) (restaurantId : ℕ) (startOfToday : ℤ) :
    List StoredOrder :=
  (mapValues st.orders).filter
    (fun o => decide (o.restaurantId = restaurantId) && decide (startOfToday ≤ o.createdAt))

/-- `itemCounts.set(item.name, (itemCounts.get(item.name) || 0) + item.quantity)`. -/
def bumpCount (m : List (String × ℚ)) (name : String) (q : ℚ) : List (String × ℚ) :=
  mapSet m name ((mapGet m name).getD 0 + q)

/-- The per-name quantity Map accumulated over the filtered orders
(JS `Map` iteration order = first-seen insertion order). -/
def collectItemCounts (orders : List StoredOrder) : List (String × ℚ) :=
  orders.foldl (fun m o => o.items.foldl (fun m2 it => bumpCount m2 it.name it.quantity) m) []

/-- Stable insertion step for descending count order: a later element goes
after every earlier element of equal count, exactly as the (stable) JS
`sort((a, b) => b.count - a.count)` leaves equal-count elements. -/
def insertByCountDesc (x : String × ℚ) : List (String × ℚ) → List (String × ℚ)
  | [] => [x]
  | y :: ys => if y.2 ≤ x.2 then x :: y :: ys else y :: insertByCountDesc x ys

/-- The stable descending-by-count sort of the item-count entries. -/
def sortByCountDesc (l : List (String × ℚ)) : List (String × ℚ) :=
  l.foldr insertByCountDesc []

/-- Result of `MemStorage.getTodayStats`. -/
structure TodayStats where
  orderCount : ℕ
  revenue : JsNum
  avgPrepTime : ℕ
  popularItems : List (String × ℚ)
deriving DecidableEq

/-- `MemStorage.getTodayStats` (src/unnamed/part_006): revenue is a bare
`reduce((sum, order) => sum + parseFloat(order.total), 0)` (NaN-propagating),
`avgPrepTime` is the hardcoded placeholder 12, and the popular-item list is
`.sort((a, b) => b.count - a.count).slice(0, 3)`. -/
def MemStorage.getTodayStats (st : MemStorage) (restaurantId : ℕ) (startOfToday : ℤ) :
    TodayStats :=
  let todayOrders := st.getTodayOrders restaurantId startOfToday
  { orderCount := todayOrders.length
    revenue := todayOrders.foldl (fun sum o => jadd sum (parseFloat o.total)) (some 0)
    avgPrepTime := 12
    popularItems := (sortByCountDesc (collectItemCounts todayOrders)).take 3 }

/-- `ORDER_STATUSES` (shared/schema.ts). -/
def ORDER_STATUSES : List String := ["pending", "preparing", "ready", "completed", "cancelled"]

/-- The typed broadcast events the routes emit. -/
inductive RtEvent
  | newOrder (order : StoredOrder)
  | orderStatusUpdate (order : StoredOrder)
  | subscriptionUpdate (restaurantId : ℕ) (restaurantName : String)
      (action : String) (newStatus : Bool)
deriving DecidableEq

/-- Result of `POST /api/orders`. -/
structure CreateOrderResult where
  order : StoredOrder
  state : MemStorage
  events : List RtEvent
deriving DecidableEq

/-- `POST /api/orders` (src/server/routes.ts): parse with
`insertOrderSchema` (any `InsertOrder` value is schema-accepted), create,
broadcast `NEW_ORDER` with the created order. -/
def postOrders (st : MemStorage) (nowMs : ℤ) (orderData : InsertOrder) : CreateOrderResult :=
  let r := st.createOrder nowMs orderData
  { order := r.1, state := r.2, events := [RtEvent.newOrder r.1] }

/-- Outcome of `PATCH /api/orders/:id/status`. -/
inductive PatchStatusResult
  | ok (order : StoredOrder) (state : MemStorage) (events : List RtEvent)
  | invalidStatus (state : MemStorage)
  | notFound (state : MemStorage)
deriving DecidableEq

/-- `PATCH /api/orders/:id/status` (src/server/routes.ts): 400 when the
status is not one of the five `ORDER_STATUSES` values, 404 when the order
is absent, otherwise the status is applied unconditionally and
`ORDER_STATUS_UPDATE` is broadcast. -/
def patchOrderStatus (st : MemStorage) (nowMs : ℤ) (id : ℕ) (status : String) :
    PatchStatusResult :=
  if status ∈ ORDER_STATUSES then
    let r := st.updateOrderStatus nowMs id status
    match r.1 with
    | none => .notFound r.2
    | some order => .ok order r.2 [RtEvent.orderStatusUpdate order]
  else .invalidStatus st

/-- Outcome of `PATCH /api/super-admin/restaurants/:id/subscription`. -/
inductive SubscriptionActionResult
  | ok (restaurant : Restaurant) (state : MemStorage) (events : List RtEvent)
  | invalidAction (state : MemStorage)
  | notFound (state : MemStorage)
deriving DecidableEq

/-- `PATCH /api/super-admin/restaurants/:id/subscription`
(src/server/routes.ts): builds the per-action `updateData` patch, merges it
with `updateRestaurant`, broadcasts `SUBSCRIPTION_UPDATE`. -/
def patchSubscription (st : MemStorage) (nowMs : ℤ) (restaurantId : ℕ) (action : String) :
    SubscriptionActionResult :=
  let updateData : Option RestaurantPatch :=
    if action = "activate" then
      some { emptyRestaurantPatch with
        isActive := some true
        subscriptionEndDate := some (some (nowMs + 365 * 24 * 60 * 60 * 1000)) }
    else if action = "suspend" then
      some { emptyRestaurantPatch with isActive := some false }
    else if action = "expire_trial" then
      some { emptyRestaurantPatch with
        isActive := some false
        planType := some "expired"
        subscriptionEndDate := some (some (nowMs - 1000)) }
    else if action = "extend_trial" then
      some { emptyRestaurantPatch with
        subscriptionEndDate := some (some (nowMs + 30 * 24 * 60 * 60 * 1000)) }
    else none
  match updateData with
  | none => .invalidAction st
  | some p =>
    let r := st.updateRestaurant restaurantId p
    match r.1 with
    | none => .notFound r.2
    | some restaurant =>
      .ok restaurant r.2
        [RtEvent.subscriptionUpdate restaurantId restaurant.name action restaurant.isActive]

/-- Badge returned by the client-side status derivation. -/
structure SubStatus where
  status : String
  color : String
deriving DecidableEq

/-- `Math.ceil((endDate.getTime() - now.getTime()) / (1000*60*60*24))`. -/
def daysLeftOf (endMs nowMs : ℤ) : ℤ :=
  ⌈(((endMs - nowMs) : ℤ) : ℚ) / (1000 * 60 * 60 * 24)⌉

/-- `getSubscriptionStatus` (client/src/pages/test-subscription.tsx), the
derived effective subscription status. -/
def getSubscriptionStatus (restaurant : Option Restaurant) (nowMs : ℤ) : SubStatus :=
  match restaurant with
  | none => { status := "loading", color := "secondary" }
  | some r =>
    if r.isActive = false then { status := "suspended/expired", color := "destructive" }
    else
      match r.subscriptionEndDate with
      | some endMs =>
        let daysLeft := daysLeftOf endMs nowMs
        if daysLeft < 0 then { status := "expired", color := "destructive" }
        else if daysLeft ≤ 7 then
          { status := intRepr daysLeft ++ " days left", color := "destructive" }
        else if daysLeft ≤ 30 then
          { status := "trial (" ++ intRepr daysLeft ++ "d)", color := "secondary" }
        else { status := "active", color := "default" }
      | none => { status := "unknown", color := "secondary" }

/-- A sequence of `createOrder` calls against one store (each with its own
`Date.now()` reading), returning the created orders in call order. -/
def createOrdersRun (st : MemStorage) (reqs : List (ℤ × InsertOrder)) :
    List StoredOrder × MemStorage :=
  match reqs with
  | [] => ([], st)
  | (t, d) :: rest =>
    let r := st.createOrder t d
    let rr := createOrdersRun r.2 rest
    (r.1 :: rr.1, rr.2)

/-- The spec's summed line-item quantity of one item name across an order
set. -/
def specItemQty (orders : List StoredOrder) (name : String) : ℚ :=
  (orders.map (fun o => ((o.items.filter (fun it => decide (it.name = name))).map
    (fun it => it.quantity)).sum)).sum

/-- The spec's revenue: the sum of the parsable stored totals. -/
def specRevenue (orders : List StoredOrder) : ℚ :=
  (orders.map (fun o => (parseFloat o.total).getD 0)).sum

/-- A broadcast message (`{ type, data }`; `dataId` stands for the JSON
payload). -/
structure BMsg where
  type : String
  dataId : ℕ
deriving DecidableEq

/-- The hub's process state: the `clients` set (in connection order), each
channel's `readyState === OPEN` flag, and the log of performed sends. -/
structure HubState where
  clients : List ℕ
  ready : ℕ → Bool
  delivered : List (ℕ × BMsg)

/-- The hub's observable actions: `wss.on('connection')` adds a channel,
`ws.on('close')` removes it, a socket's readyState may change, and
`broadcast` sends to every currently-registered open channel. -/
inductive HubStep
  | register (c : ℕ)
  | deregister (c : ℕ)
  | setReady (c : ℕ) (b : Bool)
  | publish (e : BMsg)
deriving DecidableEq

/-- `Set.add`. -/
def setAdd (s : List ℕ) (c : ℕ) : List ℕ := if c ∈ s then s else s ++ [c]

/-- `Set.delete`. -/
def setDel (s : List ℕ) (c : ℕ) : List ℕ := s.filter (fun x => decide (x ≠ c))

/-- One hub step (src/server/routes.ts lines 14–35): `publish` appends a
send to every currently-registered channel whose readyState is OPEN. -/
def hubApply (s : HubState) : HubStep → HubState
  | .register c => { s with clients := setAdd s.clients c }
  | .deregister c => { s with clients := setDel s.clients c }
  | .setReady c b => { s with ready := fun x => if x = c then b else s.ready x }
  | .publish e =>
    { s with delivered := s.delivered ++ (s.clients.filter s.ready).map (fun c => (c, e)) }

/-- Run a sequence of hub steps. -/
def hubRun (s : HubState) : List HubStep → HubState
  | [] => s
  | st :: tr => hubRun (hubApply s st) tr

/-- The sends generated while running a step sequence. -/
def newDeliveries (s : HubState) : List HubStep → List (ℕ × BMsg)
  | [] => []
  | st :: tr =>
    (match st with
      | .publish e => (s.clients.filter s.ready).map (fun c => (c, e))
      | _ => []) ++ newDeliveries (hubApply s st) tr

/-- Fixture: a line item with a given name and quantity. -/
def mkItem (name : String) (q : ℚ) : OrderItem :=
  { id := 1, name := name, price := "10.00", quantity := q, total := "10.00" }

/-- Fixture: a persisted order. -/
def baseOrder : StoredOrder :=
  { id := 1, restaurantId := 1, orderNumber := "ORD-1000-1", tableNumber := some "7",
    orderType := "dine-in", status := "pending", items := [], subtotal := "100.00",
    serviceCharge := "10.00", gst := "5.50", total := "115.50", customerName := none,
    customerPhone := none, notes := none, createdAt := 1000, updatedAt := 1000 }

/-- Fixture: a tenant record. -/
def baseRestaurant : Restaurant :=
  { id := 1, name := "Icy Spicy Tadka", slug := "icy-spicy-tadka", description := none,
    address := none, phone := none, email := none, logo := none,
    primaryColor := "#FF6B35", secondaryColor := "#C62828", accentColor := "#FFB300",
    tableCount := 15, serviceCharge := "10.00", gst := "5.00",
    orderModes := ["dine-in", "takeaway"], isActive := true,
    trialStartDate := some 0, subscriptionEndDate := some 1700000000000,
    planType := "trial", monthlyRate := some "4999.00",
    createdAt := some 0, updatedAt := some 0 }

/-- Fixture: a store with no rows. -/
def emptyStore : MemStorage :=
  { restaurants := [], orders := [], currentRestaurantId := 1, currentOrderId := 1 }

/-- Fixture: an order currently PREPARING. -/
def c1Order : StoredOrder := { baseOrder with status := "preparing" }

/-- Fixture: a store holding only `c1Order` under id 1. -/
def c1Store : MemStorage := { emptyStore with orders := [(1, c1Order)], currentOrderId := 2 }

/-- Fixture: a reference clock instant. -/
def c3Now : ℤ := 1700000000000

/-- Fixture: active trial tenant whose subscription end is one second in
the past. -/
def c3RestPast : Restaurant := { baseRestaurant with subscriptionEndDate := some (c3Now - 1000) }

/-- Fixture: active trial tenant whose subscription end is five days in
the future. -/
def c3RestFiveDays : Restaurant :=
  { baseRestaurant with subscriptionEndDate := some (c3Now + 5 * 86400000) }

/-- Fixture: a schema-accepted order-creation input carrying a caller-chosen
status. -/
def c4Insert : InsertOrder :=
  { restaurantId := 1, tableNumber := none, orderType := "takeaway", status := some "ready",
    items := [], subtotal := "0.00", serviceCharge := none, gst := none, total := "0.00",
    customerName := none, customerPhone := none, notes := none }

/-- Fixture: a schema-accepted input whose money fields are mutually
inconsistent. -/
def c10Insert : InsertOrder :=
  { c4Insert with
    status := none
    subtotal := "100.00"
    serviceCharge := some "0.00"
    gst := some "0.00"
    total := "999.00" }

/-- Fixture: an order whose stored total string does not parse. -/
def c5OrderBad : StoredOrder := { baseOrder with id := 2, total := "abc" }

/-- Fixture: a store whose day window holds one parsable and one
unparsable total. -/
def c5Store : MemStorage :=
  { emptyStore with orders := [(1, baseOrder), (2, c5OrderBad)], currentOrderId := 3 }

/-- Fixture: an order naming four distinct items. -/
def c6Order : StoredOrder :=
  { baseOrder with items := [mkItem "Dal Makhani" 4, mkItem "Paneer Tikka" 3,
      mkItem "Samosa" 2, mkItem "Masala Chai" 1] }

/-- Fixture: a store whose day window names four distinct items. -/
def c6Store : MemStorage := { emptyStore with orders := [(1, c6Order)], currentOrderId := 2 }

/-- Fixture: an order with two equal-quantity items, "Beta" seen first. -/
def c6TieOrder : StoredOrder :=
  { baseOrder with items := [mkItem "Beta" 2, mkItem "Alpha" 2] }

/-- Fixture: a store exercising the tie-break of the popular-item sort. -/
def c6TieStore : MemStorage :=
  { emptyStore with orders := [(1, c6TieOrder)], currentOrderId := 2 }

/-- Fixture: a store holding one tenant under id 1. -/
def c9Store : MemStorage :=
  { emptyStore with restaurants := [(1, baseRestaurant)], currentRestaurantId := 2 }

/-- Fixture: the hub's initial state (no channels connected, all sockets
open, nothing delivered). -/
def hubInit : HubState := { clients := [], ready := fun _ => true, delivered := [] }

theorem subtotal_foldl_eq (items : List PricedItem)
    (h : ∀ i ∈ items, (parseFloat i.price).isSome) (a : ℚ) :
    items.foldl
      (fun sum item => jadd sum (jmul (parseFloat item.price) (some item.quantity)))
      (some a) = some (a + specSubtotal items) := by
  induction items generalizing a with
  | nil => simp [specSubtotal]
  | cons x xs ih =>
    obtain ⟨p, hp⟩ := Option.isSome_iff_exists.mp (h x (List.mem_cons_self x xs))
    have hstep : jadd (some a) (jmul (parseFloat x.price) (some x.quantity))
        = some (a + p * x.quantity) := by rw [hp]; rfl
    rw [List.foldl_cons, hstep, ih (fun i hi => h i (List.mem_cons_of_mem _ hi))]
    simp [specSubtotal, hp, add_assoc]

theorem calculateOrderTotal_eq (items : List PricedItem) (sc gst : ℚ)
    (h : ∀ i ∈ items, (parseFloat i.price).isSome) :
    calculateOrderTotal items sc gst =
      { subtotal := some (specSubtotal items),
        serviceChargeAmount := some (specSubtotal items * sc / 100),
        gstAmount := some ((specSubtotal items + specSubtotal items * sc / 100) * gst / 100),
        total := some (specSubtotal items + specSubtotal items * sc / 100
          + (specSubtotal items + specSubtotal items * sc / 100) * gst / 100) } := by
  have hs := subtotal_foldl_eq items h 0
  rw [zero_add] at hs
  simp only [calculateOrderTotal]
  rw [hs]
  simp [jadd, jmulNum, jdivNum]

/-- C2: for every item list (with parsable prices) and every pair of tenant
rates, `calculateOrderTotal` yields subtotal = Σ(price × quantity),
service_charge_amount = subtotal × serviceCharge / 100,
tax_amount = (subtotal + service_charge_amount) × gst / 100 (tax applied
after the service charge), and total = the sum of the three; and on items
[{price:"100", qty:2}, {price:"50", qty:1}] with serviceCharge=10 and gst=5
it yields subtotal=250, service_charge_amount=25, tax_amount=13.75,
total=288.75. -/
theorem calculateOrderTotal_spec (items : List PricedItem) (sc gst : ℚ)
    (h : ∀ i ∈ items, (parseFloat i.price).isSome) :
    (calculateOrderTotal items sc gst).subtotal = some (specSubtotal items) ∧
    (calculateOrderTotal items sc gst).serviceChargeAmount
      = some (specSubtotal items * sc / 100) ∧
    (calculateOrderTotal items sc gst).gstAmount
      = some ((specSubtotal items + specSubtotal items * sc / 100) * gst / 100) ∧
    (calculateOrderTotal items sc gst).total
      = some (specSubtotal items + specSubtotal items * sc / 100
          + (specSubtotal items + specSubtotal items * sc / 100) * gst / 100) ∧
    calculateOrderTotal [⟨"100", 2⟩, ⟨"50", 1⟩] 10 5
      = { subtotal := some 250, serviceChargeAmount := some 25,
          gstAmount := some (55/4), total := some (1155/4) } := by
  have he := calculateOrderTotal_eq items sc gst h
  have hsub : specSubtotal ([⟨"100", 2⟩, ⟨"50", 1⟩] : List PricedItem) = 250 := by
    have h100 : parseFloat "100" = some 100 := by
      simp +decide [parseFloat, parseDigitsAux]
    have h50 : parseFloat "50" = some 50 := by
      simp +decide [parseFloat, parseDigitsAux]
    simp [specSubtotal, h100, h50]
    norm_num
  have hconc := calculateOrderTotal_eq [⟨"100", 2⟩, ⟨"50", 1⟩] 10 5 (by decide)
  rw [hsub] at hconc
  refine ⟨by rw [he], by rw [he], by rw [he], by rw [he], ?_⟩
  rw [hconc]
  norm_num

/-- Witness for C2 at the concrete scenario-1 input. -/
theorem calculateOrderTotal_spec_witness :
    (∀ i ∈ ([⟨"100", 2⟩, ⟨"50", 1⟩] : List PricedItem), (parseFloat i.price).isSome) ∧
    ((calculateOrderTotal [⟨"100", 2⟩, ⟨"50", 1⟩] 10 5).subtotal
        = some (specSubtotal [⟨"100", 2⟩, ⟨"50", 1⟩]) ∧
      (calculateOrderTotal [⟨"100", 2⟩, ⟨"50", 1⟩] 10 5).serviceChargeAmount
        = some (specSubtotal [⟨"100", 2⟩, ⟨"50", 1⟩] * 10 / 100) ∧
      (calculateOrderTotal [⟨"100", 2⟩, ⟨"50", 1⟩] 10 5).gstAmount
        = some ((specSubtotal [⟨"100", 2⟩, ⟨"50", 1⟩]
            + specSubtotal [⟨"100", 2⟩, ⟨"50", 1⟩] * 10 / 100) * 5 / 100) ∧
      (calculateOrderTotal [⟨"100", 2⟩, ⟨"50", 1⟩] 10 5).total
        = some (specSubtotal [⟨"100", 2⟩, ⟨"50", 1⟩]
            + specSubtotal [⟨"100", 2⟩, ⟨"50", 1⟩] * 10 / 100
            + (specSubtotal [⟨"100", 2⟩, ⟨"50", 1⟩]
              + specSubtotal [⟨"100", 2⟩, ⟨"50", 1⟩] * 10 / 100) * 5 / 100) ∧
      calculateOrderTotal [⟨"100", 2⟩, ⟨"50", 1⟩] 10 5
        = { subtotal := some 250, serviceChargeAmount := some 25,
            gstAmount := some (55/4), total := some (1155/4) }) :=
  ⟨by decide, calculateOrderTotal_spec [⟨"100", 2⟩, ⟨"50", 1⟩] 10 5 (by decide)⟩

theorem natReprAux_zero (fuel : ℕ) : natReprAux fuel 0 = [] := by
  cases fuel <;> rfl

theorem natReprAux_eq_digits (fuel : ℕ) :
    ∀ n, 0 < n → n ≤ fuel → natReprAux fuel n = ((Nat.digits 10 n).map digitChar).reverse := by
  induction fuel with
  | zero => intro n hn hf; omega
  | succ fuel ih =>
    intro n hn hf
    obtain ⟨m, rfl⟩ := Nat.exists_eq_add_of_lt hn
    rw [Nat.zero_add]
    show natReprAux fuel ((m + 1) / 10) ++ [digitChar ((m + 1) % 10)] = _
    rw [Nat.digits_def' (by norm_num : (1:ℕ) < 10) (Nat.succ_pos m)]
    simp only [List.map_cons, List.reverse_cons]
    by_cases hq : (m + 1) / 10 = 0
    · rw [hq, natReprAux_zero, Nat.digits_zero]
      simp
    · rw [ih ((m + 1) / 10) (Nat.pos_of_ne_zero hq)
        (by
          have := Nat.div_lt_self (Nat.succ_pos m) (by norm_num : (1:ℕ) < 10)
          omega)]

theorem digitChar_ne_dash : ∀ d, d < 10 → digitChar d ≠ '-' := by decide

theorem digitChar_inj_lt : ∀ d, d < 10 → ∀ e, e < 10 → digitChar d = digitChar e → d = e := by
  decide

theorem map_digitChar_inj :
    ∀ l1 l2 : List ℕ, (∀ d ∈ l1, d < 10) → (∀ d ∈ l2, d < 10) →
      l1.map digitChar = l2.map digitChar → l1 = l2 := by
  intro l1
  induction l1 with
  | nil => intro l2 _ _ h; cases l2 <;> simp_all
  | cons a l ih =>
    intro l2 h1 h2 h
    cases l2 with
    | nil => simp at h
    | cons b l2t =>
      simp only [List.map_cons, List.cons.injEq] at h
      have ha := digitChar_inj_lt a (h1 a (by simp)) b (h2 b (by simp)) h.1
      subst ha
      have := ih l2t (fun d hd => h1 d (by simp [hd])) (fun d hd => h2 d (by simp [hd])) h.2
      simp [this]

theorem natRepr_no_dash (n : ℕ) : ∀ c ∈ (natRepr n).data, c ≠ '-' := by
  unfold natRepr
  by_cases h : n = 0
  · simp only [h, if_pos rfl]
    decide
  · simp only [if_neg h]
    intro c hc
    change c ∈ natReprAux n n at hc
    rw [natReprAux_eq_digits n n (Nat.pos_of_ne_zero h) le_rfl] at hc
    rw [List.mem_reverse, List.mem_map] at hc
    obtain ⟨d, hd, rfl⟩ := hc
    exact digitChar_ne_dash d (Nat.digits_lt_base (by norm_num) hd)

theorem natRepr_data_eq {n : ℕ} (h : n ≠ 0) :
    (natRepr n).data = ((Nat.digits 10 n).map digitChar).reverse := by
  unfold natRepr
  rw [if_neg h]
  exact natReprAux_eq_digits n n (Nat.pos_of_ne_zero h) le_rfl

theorem natRepr_eq_zero_str {m : ℕ} (h : natRepr m = "0") : m = 0 := by
  by_contra h1
  have hd := congrArg String.data h
  rw [natRepr_data_eq h1] at hd
  have hr : List.map digitChar (Nat.digits 10 m) = ['0'] := by
    have hrev := congrArg List.reverse hd
    rw [List.reverse_reverse] at hrev
    simpa using hrev
  have hm : Nat.digits 10 m = [0] := by
    apply map_digitChar_inj
    · exact fun d hdm => Nat.digits_lt_base (by norm_num) hdm
    · intro d hdm
      simp only [List.mem_singleton] at hdm
      omega
    · rw [hr]
      decide
  have hofd := Nat.ofDigits_digits 10 m
  rw [hm, Nat.ofDigits_singleton] at hofd
  exact h1 hofd.symm

theorem natRepr_inj {n m : ℕ} (h : natRepr n = natRepr m) : n = m := by
  by_cases h0 : n = 0 <;> by_cases h1 : m = 0
  · omega
  · exfalso
    rw [h0] at h
    exact h1 (natRepr_eq_zero_str h.symm)
  · exfalso
    rw [h1] at h
    exact h0 (natRepr_eq_zero_str h)
  · have hd := congrArg String.data h
    rw [natRepr_data_eq h0, natRepr_data_eq h1] at hd
    have hrev := List.reverse_injective hd
    have hdig := map_digitChar_inj _ _
      (fun d hdm => Nat.digits_lt_base (by norm_num) hdm)
      (fun d hdm => Nat.digits_lt_base (by norm_num) hdm) hrev
    exact Nat.digits_inj_iff.mp hdig

theorem takeWhile_all_append (p : Char → Bool) (l1 l2 : List Char)
    (h : ∀ c ∈ l1, p c = true) : (l1 ++ l2).takeWhile p = l1 ++ l2.takeWhile p := by
  induction l1 with
  | nil => simp
  | cons a l ih =>
    have ha : p a = true := h a (by simp)
    simp only [List.cons_append, List.takeWhile_cons, ha, if_pos]
    rw [ih (fun c hc => h c (by simp [hc]))]

theorem afterLastDash_append (pre d : List Char) (hd : ∀ c ∈ d, c ≠ '-') :
    afterLastDash (pre ++ '-' :: d) = d := by
  unfold afterLastDash
  rw [List.reverse_append, List.reverse_cons, List.append_assoc]
  rw [takeWhile_all_append _ _ _
    (fun c hc => by
      rw [List.mem_reverse] at hc
      simp [hd c hc])]
  simp [List.takeWhile_cons]

theorem string_data_append (s t : String) : (s ++ t).data = s.data ++ t.data := rfl

theorem afterLastDash_mkOrderNumber (t : ℤ) (i : ℕ) :
    afterLastDash (mkOrderNumber t i).data = (natRepr i).data := by
  have hsplit : (mkOrderNumber t i).data
      = (("ORD-" ++ intRepr t).data ++ '-' :: (natRepr i).data) := by
    show (("ORD-" ++ intRepr t ++ "-") ++ natRepr i).data = _
    rw [string_data_append, string_data_append]
    simp
  rw [hsplit]
  exact afterLastDash_append _ _ (natRepr_no_dash i)

theorem mkOrderNumber_inj_suffix {t1 t2 : ℤ} {i1 i2 : ℕ}
    (h : mkOrderNumber t1 i1 = mkOrderNumber t2 i2) : i1 = i2 := by
  have h1 := afterLastDash_mkOrderNumber t1 i1
  have h2 := afterLastDash_mkOrderNumber t2 i2
  rw [h] at h1
  refine natRepr_inj (String.ext ?_)
  rw [← h1, ← h2]

theorem mapGet_mapSet_self {κ α : Type} [DecidableEq κ] (m : List (κ × α)) (k : κ) (v : α) :
    mapGet (mapSet m k v) k = some v := by
  induction m with
  | nil => simp [mapGet, mapSet]
  | cons p rest ih =>
    by_cases h : p.1 = k
    · simp [mapSet, h, mapGet]
    · simp [mapSet, h, mapGet, ih]

theorem createOrdersRun_ids (st : MemStorage) (reqs : List (ℤ × InsertOrder)) :
    (∀ o ∈ (createOrdersRun st reqs).1,
      st.currentOrderId ≤ o.id ∧ ∃ t, o.orderNumber = mkOrderNumber t o.id) ∧
    List.Pairwise (fun a b => a.id < b.id) (createOrdersRun st reqs).1 := by
  induction reqs generalizing st with
  | nil => simp [createOrdersRun]
  | cons r rest ih =>
    obtain ⟨t, d⟩ := r
    have hnext : ((st.createOrder t d).2).currentOrderId = st.currentOrderId + 1 := rfl
    have hid : ((st.createOrder t d).1).id = st.currentOrderId := rfl
    have hnum : ((st.createOrder t d).1).orderNumber = mkOrderNumber t st.currentOrderId := rfl
    have ihs := ih (st.createOrder t d).2
    constructor
    · intro o ho
      simp only [createOrdersRun, List.mem_cons] at ho
      rcases ho with rfl | hmem
      · exact ⟨le_of_eq hid.symm, t, by rw [hnum, hid]⟩
      · obtain ⟨hle, hex⟩ := ihs.1 o hmem
        rw [hnext] at hle
        exact ⟨by omega, hex⟩
    · show List.Pairwise _ ((st.createOrder t d).1 :: (createOrdersRun (st.createOrder t d).2 rest).1)
      refine List.Pairwise.cons ?_ ihs.2
      intro b hb
      have hle := (ihs.1 b hb).1
      rw [hnext] at hle
      rw [hid]
      omega

/-- C8: every sequence of order-creation calls against one store yields
pairwise-distinct order numbers, each of the form `ORD-<unix_ms>-<suffix>`
(the suffix being the decimal store id assigned to the order). -/
theorem createOrder_orderNumbers_unique (st : MemStorage) (reqs : List (ℤ × InsertOrder)) :
    List.Pairwise (fun a b => a ≠ b)
      ((createOrdersRun st reqs).1.map (fun o => o.orderNumber)) ∧
    ∀ o ∈ (createOrdersRun st reqs).1,
      ∃ t id, o.orderNumber = "ORD-" ++ intRepr t ++ "-" ++ natRepr id := by
  have h := createOrdersRun_ids st reqs
  constructor
  · rw [List.pairwise_map]
    refine List.Pairwise.imp_of_mem ?_ h.2
    intro a b ha hb hlt heq
    obtain ⟨_, ta, hna⟩ := h.1 a ha
    obtain ⟨_, tb, hnb⟩ := h.1 b hb
    rw [hna, hnb] at heq
    exact absurd (mkOrderNumber_inj_suffix heq) (by omega)
  · intro o ho
    obtain ⟨_, t, hn⟩ := h.1 o ho
    exact ⟨t, o.id, hn⟩

/-- C1 counterexample: with stored status PREPARING, requesting PENDING
does not fail — the route succeeds, stores PENDING, and broadcasts
`ORDER_STATUS_UPDATE`; the code never compares against the current
status. -/
theorem patchOrderStatus_no_transition_check :
    c1Order.status = "preparing" ∧
    mapGet c1Store.orders 1 = some c1Order ∧
    patchOrderStatus c1Store 2000 1 "pending"
      = PatchStatusResult.ok { c1Order with status := "pending", updatedAt := 2000 }
          { c1Store with orders := [(1, { c1Order with status := "pending", updatedAt := 2000 })] }
          [RtEvent.orderStatusUpdate { c1Order with status := "pending", updatedAt := 2000 }] ∧
    (mapGet ({ c1Store with
        orders := [(1, { c1Order with status := "pending", updatedAt := 2000 })] }).orders 1).map
      (fun o => o.status) = some "pending" := by
  refine ⟨rfl, rfl, ?_, rfl⟩
  decide

/-- C1 (amended): the status-transition route validates only that the
requested status is one of the five `ORDER_STATUSES` members (rejecting
others with 400 and leaving the store unchanged); any member status —
including PENDING on a PREPARING order and any status on a COMPLETED or
CANCELLED order — is applied unconditionally to the stored order, stamping
`updatedAt` and emitting `ORDER_STATUS_UPDATE`. -/
theorem patchOrderStatus_spec (st : MemStorage) (now : ℤ) (id : ℕ) (s : String)
    (o : StoredOrder) (ho : mapGet st.orders id = some o) :
    (s ∈ ORDER_STATUSES →
      patchOrderStatus st now id s =
        PatchStatusResult.ok { o with status := s, updatedAt := now }
          { st with orders := mapSet st.orders id { o with status := s, updatedAt := now } }
          [RtEvent.orderStatusUpdate { o with status := s, updatedAt := now }]) ∧
    (s ∉ ORDER_STATUSES →
      patchOrderStatus st now id s = PatchStatusResult.invalidStatus st) := by
  constructor
  · intro hs
    unfold patchOrderStatus
    rw [if_pos hs]
    unfold MemStorage.updateOrderStatus
    rw [ho]
  · intro hs
    unfold patchOrderStatus
    rw [if_neg hs]

/-- Witness for C1's amended theorem at a concrete store and status. -/
theorem patchOrderStatus_spec_witness :
    mapGet c1Store.orders 1 = some c1Order ∧
    patchOrderStatus c1Store 3000 1 "ready"
      = PatchStatusResult.ok { c1Order with status := "ready", updatedAt := 3000 }
          { c1Store with
            orders := mapSet c1Store.orders 1 { c1Order with status := "ready", updatedAt := 3000 } }
          [RtEvent.orderStatusUpdate { c1Order with status := "ready", updatedAt := 3000 }] :=
  ⟨by decide, (patchOrderStatus_spec c1Store 3000 1 "ready" c1Order (by decide)).1 (by decide)⟩

/-- C4 counterexample: `insertOrderSchema` does not strip `status`, and
`createOrder` uses `orderData.status || "pending"`, so an accepted input
carrying status "ready" is persisted with status "ready", not PENDING. -/
theorem postOrders_status_passthrough :
    (postOrders emptyStore 1000 c4Insert).order.status = "ready" ∧
    ("ready" : String) ≠ "pending" := by
  refine ⟨rfl, ?_⟩
  decide

/-- C4 (amended): order creation always generates an order number of the
form `ORD-<unix_ms>-<suffix>` (the suffix being the assigned id), persists
the order, and publishes exactly one NEW_ORDER event carrying the created
order; but the created status is the caller-supplied status when a
non-empty one is provided, and PENDING only as the `|| "pending"`
fallback. -/
theorem postOrders_spec (st : MemStorage) (now : ℤ) (d : InsertOrder) :
    (postOrders st now d).order.status = jsOrDefault d.status "pending" ∧
    (postOrders st now d).order.orderNumber
      = "ORD-" ++ intRepr now ++ "-" ++ natRepr st.currentOrderId ∧
    (postOrders st now d).events = [RtEvent.newOrder (postOrders st now d).order] ∧
    mapGet (postOrders st now d).state.orders (postOrders st now d).order.id
      = some (postOrders st now d).order :=
  ⟨rfl, rfl, rfl, mapGet_mapSet_self _ _ _⟩

/-- C10: order creation persists the caller-supplied subtotal,
serviceCharge, gst and total strings verbatim (modulo only the `|| "0.00"`
fallbacks), never recomputing them from the line items; consequently an
accepted input exists (subtotal "100.00", serviceCharge "0.00", gst
"0.00", total "999.00") whose persisted total differs from
subtotal + serviceCharge + gst. -/
theorem createOrder_persists_money_verbatim :
    (∀ (st : MemStorage) (now : ℤ) (d : InsertOrder),
      ((st.createOrder now d).1).subtotal = d.subtotal ∧
      ((st.createOrder now d).1).serviceCharge = jsOrDefault d.serviceCharge "0.00" ∧
      ((st.createOrder now d).1).gst = jsOrDefault d.gst "0.00" ∧
      ((st.createOrder now d).1).total = d.total ∧
      ((st.createOrder now d).1).items = d.items) ∧
    parseFloat ((emptyStore.createOrder 1000 c10Insert).1).total
      ≠ jadd (parseFloat ((emptyStore.createOrder 1000 c10Insert).1).subtotal)
          (jadd (parseFloat ((emptyStore.createOrder 1000 c10Insert).1).serviceCharge)
            (parseFloat ((emptyStore.createOrder 1000 c10Insert).1).gst)) := by
  refine ⟨fun st now d => ⟨rfl, rfl, rfl, rfl, rfl⟩, ?_⟩
  have h999 : parseFloat "999.00" = some 999 := by simp +decide [parseFloat, parseDigitsAux]
  have h100 : parseFloat "100.00" = some 100 := by simp +decide [parseFloat, parseDigitsAux]
  have h0 : parseFloat "0.00" = some 0 := by simp +decide [parseFloat, parseDigitsAux]
  show parseFloat "999.00"
    ≠ jadd (parseFloat "100.00") (jadd (parseFloat "0.00") (parseFloat "0.00"))
  rw [h999, h100, h0]
  simp [jadd]

/-- C9: the suspend admin action sets the tenant's active flag to false
and leaves every other stored field — the record update `{ r with
isActive := false }` keeps all remaining fields of `r`, and in particular
`subscriptionEndDate` is untouched; the updated record is persisted and a
SUBSCRIPTION_UPDATE is broadcast. -/
theorem suspend_action_frame (st : MemStorage) (now : ℤ) (rid : ℕ) (r : Restaurant)
    (h : mapGet st.restaurants rid = some r) :
    patchSubscription st now rid "suspend"
      = SubscriptionActionResult.ok { r with isActive := false }
          { st with restaurants := mapSet st.restaurants rid { r with isActive := false } }
          [RtEvent.subscriptionUpdate rid r.name "suspend" false] ∧
    mapGet ({ st with
        restaurants := mapSet st.restaurants rid { r with isActive := false } }).restaurants rid
      = some { r with isActive := false } ∧
    ({ r with isActive := false } : Restaurant).subscriptionEndDate = r.subscriptionEndDate ∧
    ({ r with isActive := false } : Restaurant).planType = r.planType ∧
    ({ r with isActive := false } : Restaurant).name = r.name := by
  refine ⟨?_, mapGet_mapSet_self _ _ _, rfl, rfl, rfl⟩
  unfold patchSubscription
  rw [if_neg (by decide : ¬("suspend" = "activate")), if_pos rfl]
  unfold MemStorage.updateRestaurant
  rw [h]
  rfl

/-- Witness for C9 at a concrete store and tenant. -/
theorem suspend_action_frame_witness :
    mapGet c9Store.restaurants 1 = some baseRestaurant ∧
    patchSubscription c9Store 5000 1 "suspend"
      = SubscriptionActionResult.ok { baseRestaurant with isActive := false }
          { c9Store with
            restaurants := mapSet c9Store.restaurants 1 { baseRestaurant with isActive := false } }
          [RtEvent.subscriptionUpdate 1 baseRestaurant.name "suspend" false] :=
  ⟨by decide, (suspend_action_frame c9Store 5000 1 baseRestaurant (by decide)).1⟩

theorem getSubscriptionStatus_active_eq (r : Restaurant) (now endMs : ℤ)
    (hact : r.isActive = true) (hend : r.subscriptionEndDate = some endMs) :
    getSubscriptionStatus (some r) now =
      (if daysLeftOf endMs now < 0 then { status := "expired", color := "destructive" }
       else if daysLeftOf endMs now ≤ 7 then
         { status := intRepr (daysLeftOf endMs now) ++ " days left", color := "destructive" }
       else if daysLeftOf endMs now ≤ 30 then
         { status := "trial (" ++ intRepr (daysLeftOf endMs now) ++ "d)", color := "secondary" }
       else { status := "active", color := "default" }) := by
  simp [getSubscriptionStatus, hact, hend]

theorem daysLeftOf_neg_iff (endMs now : ℤ) :
    daysLeftOf endMs now < 0 ↔ endMs + 86400000 ≤ now := by
  calc daysLeftOf endMs now < 0 ↔ daysLeftOf endMs now ≤ -1 := by omega
    _ ↔ (((endMs - now : ℤ) : ℚ) / (1000 * 60 * 60 * 24)) ≤ ((-1 : ℤ) : ℚ) := Int.ceil_le
    _ ↔ ((endMs - now : ℤ) : ℚ) ≤ -86400000 := by
        rw [div_le_iff₀ (by norm_num : (0:ℚ) < 1000 * 60 * 60 * 24)]
        norm_num
    _ ↔ endMs - now ≤ -86400000 := by
        constructor
        · intro hq
          exact_mod_cast hq
        · intro hz
          exact_mod_cast hz
    _ ↔ endMs + 86400000 ≤ now := by omega

/-- C3 counterexample: an active tenant whose subscription end is one
second in the past reports "0 days left" (because `Math.ceil` of a small
negative is `-0`, which is not `< 0`), not `expired`; and an active trial
tenant with end five days ahead reports "5 days left" (the `daysLeft ≤ 7`
branch), not `trial(5)`. -/
theorem getSubscriptionStatus_counterexample :
    c3RestPast.isActive = true ∧
    c3RestPast.subscriptionEndDate = some (c3Now - 1000) ∧
    getSubscriptionStatus (some c3RestPast) c3Now
      = { status := "0 days left", color := "destructive" } ∧
    "0 days left" ≠ "expired" ∧
    c3RestFiveDays.planType = "trial" ∧
    getSubscriptionStatus (some c3RestFiveDays) c3Now
      = { status := "5 days left", color := "destructive" } ∧
    "5 days left" ≠ "trial (5d)" := by
  have h0 : daysLeftOf (c3Now - 1000) c3Now = 0 := by
    unfold daysLeftOf
    rw [Int.ceil_eq_iff]
    constructor
    · push_cast
      norm_num
    · push_cast
      norm_num
  have h5 : daysLeftOf (c3Now + 5 * 86400000) c3Now = 5 := by
    unfold daysLeftOf
    rw [Int.ceil_eq_iff]
    constructor
    · push_cast
      norm_num
    · push_cast
      norm_num
  have hpast := getSubscriptionStatus_active_eq c3RestPast c3Now (c3Now - 1000) rfl rfl
  rw [h0] at hpast
  norm_num at hpast
  have hfive := getSubscriptionStatus_active_eq c3RestFiveDays c3Now (c3Now + 5 * 86400000) rfl rfl
  rw [h5] at hfive
  norm_num at hfive
  refine ⟨rfl, rfl, ?_, by decide, rfl, ?_, by decide⟩
  · rw [hpast]
    have h : intRepr 0 = "0" := by decide
    rw [h]
    decide
  · rw [hfive]
    have h : intRepr 5 = "5" := by decide
    rw [h]
    decide

/-- C3 (amended): the derived status is "suspended/expired" whenever the
active flag is false; for an active tenant with a subscription end, the
code is driven by `daysLeft = ceil((end − now)/1 day)` alone (the plan
type is never consulted): it reports `expired` only when `daysLeft < 0`,
i.e. only when now is at least one full day past the end (so an end one
second in the past is not expired); `"<n> days left"` when
`0 ≤ daysLeft ≤ 7`; `trial (<n>d)` only when `7 < daysLeft ≤ 30`; and
`active` beyond that; a missing end date reports "unknown". -/
theorem getSubscriptionStatus_spec (r : Restaurant) (now : ℤ) :
    (r.isActive = false →
      getSubscriptionStatus (some r) now
        = { status := "suspended/expired", color := "destructive" }) ∧
    (∀ endMs, r.isActive = true → r.subscriptionEndDate = some endMs →
      ((daysLeftOf endMs now < 0 ↔ endMs + 86400000 ≤ now) ∧
       (daysLeftOf endMs now < 0 →
         getSubscriptionStatus (some r) now = { status := "expired", color := "destructive" }) ∧
       (0 ≤ daysLeftOf endMs now → daysLeftOf endMs now ≤ 7 →
         getSubscriptionStatus (some r) now
           = { status := intRepr (daysLeftOf endMs now) ++ " days left",
               color := "destructive" }) ∧
       (7 < daysLeftOf endMs now → daysLeftOf endMs now ≤ 30 →
         getSubscriptionStatus (some r) now
           = { status := "trial (" ++ intRepr (daysLeftOf endMs now) ++ "d)",
               color := "secondary" }) ∧
       (30 < daysLeftOf endMs now →
         getSubscriptionStatus (some r) now = { status := "active", color := "default" }))) ∧
    (r.isActive = true → r.subscriptionEndDate = none →
      getSubscriptionStatus (some r) now = { status := "unknown", color := "secondary" }) := by
  refine ⟨?_, ?_, ?_⟩
  · intro h
    simp [getSubscriptionStatus, h]
  · intro endMs hact hend
    have he := getSubscriptionStatus_active_eq r now endMs hact hend
    refine ⟨daysLeftOf_neg_iff endMs now, ?_, ?_, ?_, ?_⟩
    · intro hneg
      rw [he, if_pos hneg]
    · intro hge hle
      rw [he, if_neg (by omega), if_pos hle]
    · intro hgt hle
      rw [he, if_neg (by omega), if_neg (by omega), if_pos hle]
    · intro hgt
      rw [he, if_neg (by omega), if_neg (by omega), if_neg (by omega)]
  · intro hact hnone
    simp [getSubscriptionStatus, hact, hnone]

/-- Witness for C3's amended theorem: a suspended tenant reports
"suspended/expired". -/
theorem getSubscriptionStatus_spec_witness :
    getSubscriptionStatus (some { baseRestaurant with isActive := false }) c3Now
      = { status := "suspended/expired", color := "destructive" } :=
  (getSubscriptionStatus_spec { baseRestaurant with isActive := false } c3Now).1 rfl

theorem foldl_jadd_none (l : List StoredOrder) :
    l.foldl (fun sum o => jadd sum (parseFloat o.total)) none = none := by
  induction l with
  | nil => rfl
  | cons x xs ih =>
    rw [List.foldl_cons]
    have : jadd none (parseFloat x.total) = none := rfl
    rw [this, ih]

theorem revenue_foldl_none_iff (orders : List StoredOrder) (a : ℚ) :
    (orders.foldl (fun sum o => jadd sum (parseFloat o.total)) (some a) = none)
      ↔ ∃ o ∈ orders, parseFloat o.total = none := by
  induction orders generalizing a with
  | nil => simp
  | cons x xs ih =>
    rw [List.foldl_cons]
    cases hx : parseFloat x.total with
    | none =>
      rw [show jadd (some a) none = none from rfl, foldl_jadd_none]
      constructor
      · intro _
        exact ⟨x, List.mem_cons_self x xs, hx⟩
      · intro _
        rfl
    | some p =>
      rw [show jadd (some a) (some p) = some (a + p) from rfl, ih]
      constructor
      · rintro ⟨o, ho, hno⟩
        exact ⟨o, List.mem_cons_of_mem _ ho, hno⟩
      · rintro ⟨o, ho, hno⟩
        rcases List.mem_cons.mp ho with rfl | hmem
        · rw [hx] at hno
          exact absurd hno (by simp)
        · exact ⟨o, hmem, hno⟩

theorem revenue_foldl_some (orders : List StoredOrder)
    (h : ∀ o ∈ orders, (parseFloat o.total).isSome) (a : ℚ) :
    orders.foldl (fun sum o => jadd sum (parseFloat o.total)) (some a)
      = some (a + specRevenue orders) := by
  induction orders generalizing a with
  | nil => simp [specRevenue]
  | cons x xs ih =>
    obtain ⟨p, hp⟩ := Option.isSome_iff_exists.mp (h x (List.mem_cons_self x xs))
    have hstep : jadd (some a) (parseFloat x.total) = some (a + p) := by rw [hp]; rfl
    rw [List.foldl_cons, hstep, ih (fun o ho => h o (List.mem_cons_of_mem _ ho))]
    simp [specRevenue, hp, add_assoc]

/-- C5 counterexample: an order with unparsable stored total does not
abort the aggregation (the count is still 2) but it is not skipped — the
whole revenue becomes NaN (`none`), corrupting the 115.50 contributed by
the parsable order. -/
theorem getTodayStats_unparsable_corrupts :
    (c5Store.getTodayStats 1 0).orderCount = 2 ∧
    parseFloat c5OrderBad.total = none ∧
    parseFloat baseOrder.total = some (231/2) ∧
    (c5Store.getTodayStats 1 0).revenue = none ∧
    (c5Store.getTodayStats 1 0).revenue ≠ some (231/2) := by
  have hrev : (c5Store.getTodayStats 1 0).revenue = none := rfl
  refine ⟨rfl, rfl, ?_, hrev, ?_⟩
  · show parseFloat "115.50" = some (231/2)
    simp +decide [parseFloat, parseDigitsAux]
    norm_num
  · rw [hrev]
    simp

/-- C5 (amended): the daily-stats aggregation never throws — order_count
and the rest of the record are always produced — but a single order whose
stored total does not parse is not skipped: the revenue is NaN (`none`)
exactly when some order of the window has an unparsable total, and only
when every total parses does it equal the sum of the parsed totals. -/
theorem getTodayStats_revenue_spec (st : MemStorage) (rid : ℕ) (day : ℤ) :
    ((st.getTodayStats rid day).revenue = none
      ↔ ∃ o ∈ st.getTodayOrders rid day, parseFloat o.total = none) ∧
    ((∀ o ∈ st.getTodayOrders rid day, (parseFloat o.total).isSome) →
      (st.getTodayStats rid day).revenue = some (specRevenue (st.getTodayOrders rid day))) ∧
    (st.getTodayStats rid day).orderCount = (st.getTodayOrders rid day).length := by
  refine ⟨revenue_foldl_none_iff _ 0, ?_, rfl⟩
  intro h
  show (st.getTodayOrders rid day).foldl _ (some 0) = some _
  rw [revenue_foldl_some _ h 0, zero_add]

/-- Witness for C5's amended theorem at a concrete store. -/
theorem getTodayStats_revenue_spec_witness :
    (∀ o ∈ c1Store.getTodayOrders 1 0, (parseFloat o.total).isSome) ∧
    (c1Store.getTodayStats 1 0).revenue = some (specRevenue (c1Store.getTodayOrders 1 0)) :=
  ⟨by decide, (getTodayStats_revenue_spec c1Store 1 0).2.1 (by decide)⟩

theorem mapGet_mapSet_ne {κ α : Type} [DecidableEq κ] (m : List (κ × α)) (k k' : κ) (v : α)
    (h : k' ≠ k) : mapGet (mapSet m k v) k' = mapGet m k' := by
  induction m with
  | nil =>
    simp only [mapSet, mapGet]
    rw [if_neg (fun he => h he.symm)]
  | cons p rest ih =>
    by_cases hp : p.1 = k
    · subst hp
      simp only [mapSet, if_pos rfl, mapGet]
      rw [if_neg (fun he => h he.symm), if_neg (fun he => h he.symm)]
    · by_cases hpk : p.1 = k'
      · simp only [mapSet, if_neg hp, mapGet, if_pos hpk]
      · simp only [mapSet, if_neg hp, mapGet, if_neg hpk]
        exact ih

theorem mem_keys_mapSet {κ α : Type} [DecidableEq κ] (m : List (κ × α)) (k : κ) (v : α)
    (k' : κ) : k' ∈ (mapSet m k v).map Prod.fst ↔ k' ∈ m.map Prod.fst ∨ k' = k := by
  induction m with
  | nil => simp [mapSet]
  | cons p rest ih =>
    by_cases hp : p.1 = k
    · subst hp
      simp [mapSet]
      tauto
    · simp [mapSet, hp, ih]
      tauto

theorem mapSet_keys_nodup {κ α : Type} [DecidableEq κ] (m : List (κ × α)) (k : κ) (v : α)
    (h : (m.map Prod.fst).Nodup) : ((mapSet m k v).map Prod.fst).Nodup := by
  induction m with
  | nil => simp [mapSet]
  | cons p rest ih =>
    rw [List.map_cons, List.nodup_cons] at h
    by_cases hp : p.1 = k
    · subst hp
      simpa [mapSet, List.nodup_cons] using h
    · rw [mapSet, if_neg hp, List.map_cons, List.nodup_cons]
      refine ⟨?_, ih h.2⟩
      intro hmem
      rcases (mem_keys_mapSet rest k v p.1).mp hmem with hin | heq
      · exact h.1 hin
      · exact hp heq

theorem mapGet_of_mem {κ α : Type} [DecidableEq κ] (m : List (κ × α)) (p : κ × α)
    (hm : p ∈ m) (h : (m.map Prod.fst).Nodup) : mapGet m p.1 = some p.2 := by
  induction m with
  | nil => simp at hm
  | cons q rest ih =>
    rw [List.map_cons, List.nodup_cons] at h
    rcases List.mem_cons.mp hm with rfl | hmem
    · simp [mapGet]
    · have hq : q.1 ≠ p.1 := by
        intro he
        exact h.1 (he ▸ List.mem_map_of_mem Prod.fst hmem)
      rw [mapGet, if_neg hq]
      exact ih hmem h.2

theorem mapGet_bumpCount_self (m : List (String × ℚ)) (n : String) (q : ℚ) :
    mapGet (bumpCount m n q) n = some ((mapGet m n).getD 0 + q) :=
  mapGet_mapSet_self m n _

theorem mapGet_bumpCount_ne (m : List (String × ℚ)) (n n' : String) (q : ℚ) (h : n' ≠ n) :
    mapGet (bumpCount m n q) n' = mapGet m n' :=
  mapGet_mapSet_ne m n n' _ h

theorem itemsFold_getD (items : List OrderItem) (name : String) :
    ∀ m : List (String × ℚ),
      (mapGet (items.foldl (fun m2 it => bumpCount m2 it.name it.quantity) m) name).getD 0
        = (mapGet m name).getD 0
          + ((items.filter (fun it => decide (it.name = name))).map
              (fun it => it.quantity)).sum := by
  induction items with
  | nil => intro m; simp
  | cons it its ih =>
    intro m
    rw [List.foldl_cons, ih]
    by_cases h : it.name = name
    · rw [List.filter_cons_of_pos (by simp [h])]
      rw [← h, mapGet_bumpCount_self]
      simp [add_assoc]
    · rw [List.filter_cons_of_neg (by simp [h])]
      rw [mapGet_bumpCount_ne _ _ _ _ (fun he => h he.symm)]

theorem ordersFold_getD (orders : List StoredOrder) (name : String) :
    ∀ m : List (String × ℚ),
      (mapGet (orders.foldl
          (fun m o => o.items.foldl (fun m2 it => bumpCount m2 it.name it.quantity) m) m)
        name).getD 0
        = (mapGet m name).getD 0 + specItemQty orders name := by
  induction orders with
  | nil => intro m; simp [specItemQty]
  | cons o os ih =>
    intro m
    rw [List.foldl_cons, ih, itemsFold_getD]
    simp only [specItemQty, List.map_cons, List.sum_cons]
    ring

theorem collectItemCounts_getD (orders : List StoredOrder) (name : String) :
    (mapGet (collectItemCounts orders) name).getD 0 = specItemQty orders name := by
  have h := ordersFold_getD orders name []
  simpa [collectItemCounts, mapGet] using h

theorem itemsFold_keys_nodup (items : List OrderItem) :
    ∀ m : List (String × ℚ), (m.map Prod.fst).Nodup →
      (((items.foldl (fun m2 it => bumpCount m2 it.name it.quantity) m)).map Prod.fst).Nodup := by
  induction items with
  | nil => intro m hm; exact hm
  | cons it its ih =>
    intro m hm
    exact ih _ (mapSet_keys_nodup _ _ _ hm)

theorem collectItemCounts_nodup (orders : List StoredOrder) :
    ((collectItemCounts orders).map Prod.fst).Nodup := by
  suffices h : ∀ m : List (String × ℚ), (m.map Prod.fst).Nodup →
      ((orders.foldl
          (fun m o => o.items.foldl (fun m2 it => bumpCount m2 it.name it.quantity) m)
          m).map Prod.fst).Nodup by
    exact h [] (by simp)
  induction orders with
  | nil => intro m hm; exact hm
  | cons o os ih =>
    intro m hm
    exact ih _ (itemsFold_keys_nodup o.items m hm)

theorem mem_collectItemCounts_val (orders : List StoredOrder) (p : String × ℚ)
    (hp : p ∈ collectItemCounts orders) : p.2 = specItemQty orders p.1 := by
  have hget := mapGet_of_mem _ p hp (collectItemCounts_nodup orders)
  have hgd := collectItemCounts_getD orders p.1
  rw [hget] at hgd
  simpa using hgd

theorem insertByCountDesc_perm (x : String × ℚ) (l : List (String × ℚ)) :
    List.Perm (insertByCountDesc x l) (x :: l) := by
  induction l with
  | nil => rfl
  | cons y ys ih =>
    rw [insertByCountDesc]
    by_cases hc : y.2 ≤ x.2
    · rw [if_pos hc]
    · rw [if_neg hc]
      exact (ih.cons y).trans (List.Perm.swap x y ys)

theorem sortByCountDesc_perm (l : List (String × ℚ)) :
    List.Perm (sortByCountDesc l) l := by
  induction l with
  | nil => rfl
  | cons a l ih =>
    show List.Perm (insertByCountDesc a (sortByCountDesc l)) (a :: l)
    exact (insertByCountDesc_perm a (sortByCountDesc l)).trans (ih.cons a)

theorem insertByCountDesc_sorted (x : String × ℚ) (l : List (String × ℚ))
    (h : List.Pairwise (fun a b => b.2 ≤ a.2) l) :
    List.Pairwise (fun a b => b.2 ≤ a.2) (insertByCountDesc x l) := by
  induction l with
  | nil => simp [insertByCountDesc]
  | cons y ys ih =>
    rw [insertByCountDesc]
    by_cases hc : y.2 ≤ x.2
    · rw [if_pos hc]
      refine List.Pairwise.cons ?_ h
      intro b hb
      rcases List.mem_cons.mp hb with rfl | hmem
      · exact hc
      · exact le_trans (List.rel_of_pairwise_cons h hmem) hc
    · rw [if_neg hc]
      refine List.Pairwise.cons ?_ (ih (List.Pairwise.of_cons h))
      intro b hb
      have hb2 : b ∈ x :: ys := (insertByCountDesc_perm x ys).mem_iff.mp hb
      rcases List.mem_cons.mp hb2 with rfl | hmem
      · exact le_of_not_le hc
      · exact List.rel_of_pairwise_cons h hmem

theorem sortByCountDesc_sorted (l : List (String × ℚ)) :
    List.Pairwise (fun a b => b.2 ≤ a.2) (sortByCountDesc l) := by
  induction l with
  | nil => simp [sortByCountDesc]
  | cons a l ih =>
    exact insertByCountDesc_sorted a (sortByCountDesc l) ih

/-- C6 counterexample: the popular-item list is truncated by a hardcoded
`.slice(0, 3)` — `getTodayStats` takes no top-N argument, and with four
distinct item names in the window exactly three entries come back, the
lowest-quantity item being unobtainable by any caller. -/
theorem getTodayStats_popularItems_fixed_top3 :
    (collectItemCounts (c6Store.getTodayOrders 1 0)).length = 4 ∧
    (c6Store.getTodayStats 1 0).popularItems
      = [("Dal Makhani", 4), ("Paneer Tikka", 3), ("Samosa", 2)] ∧
    (c6Store.getTodayStats 1 0).popularItems.length = 3 ∧
    ("Masala Chai", (1 : ℚ)) ∉ (c6Store.getTodayStats 1 0).popularItems := by
  have horders : c6Store.getTodayOrders 1 0 = [c6Order] := rfl
  have hcounts : collectItemCounts [c6Order]
      = [("Dal Makhani", 4), ("Paneer Tikka", 3), ("Samosa", 2), ("Masala Chai", 1)] := by
    show [("Dal Makhani", (0 : ℚ) + 4), ("Paneer Tikka", (0 : ℚ) + 3),
        ("Samosa", (0 : ℚ) + 2), ("Masala Chai", (0 : ℚ) + 1)] = _
    norm_num
  have hsort : sortByCountDesc
      [("Dal Makhani", 4), ("Paneer Tikka", 3), ("Samosa", 2), ("Masala Chai", 1)]
      = [("Dal Makhani", 4), ("Paneer Tikka", 3), ("Samosa", 2), ("Masala Chai", 1)] := by
    norm_num [sortByCountDesc, insertByCountDesc]
  have hpi : (c6Store.getTodayStats 1 0).popularItems
      = [("Dal Makhani", 4), ("Paneer Tikka", 3), ("Samosa", 2)] := by
    have h1 : (c6Store.getTodayStats 1 0).popularItems
        = (sortByCountDesc (collectItemCounts (c6Store.getTodayOrders 1 0))).take 3 := rfl
    rw [h1, horders, hcounts, hsort]
    rfl
  refine ⟨by rw [horders, hcounts]; rfl, hpi, by rw [hpi]; rfl, ?_⟩
  rw [hpi]
  intro hmem
  rcases List.mem_cons.mp hmem with h | hmem
  · exact absurd (congrArg Prod.fst h) (by decide)
  rcases List.mem_cons.mp hmem with h | hmem
  · exact absurd (congrArg Prod.fst h) (by decide)
  rcases List.mem_cons.mp hmem with h | hmem
  · exact absurd (congrArg Prod.fst h) (by decide)
  · simp at hmem

/-- C6 (amended): popular_items sums line-item quantities per item name
across the filtered day window, sorts by summed quantity descending with
ties broken by first-seen order (the JS sort is stable), and truncates to
a fixed top-3 — the bound is hardcoded, not a caller-supplied parameter;
in the tie fixture the first-seen "Beta" precedes the equal-count
"Alpha". -/
theorem getTodayStats_popularItems_spec (st : MemStorage) (rid : ℕ) (day : ℤ) :
    (st.getTodayStats rid day).popularItems.length ≤ 3 ∧
    List.Pairwise (fun a b => b.2 ≤ a.2) (st.getTodayStats rid day).popularItems ∧
    (∀ p ∈ (st.getTodayStats rid day).popularItems,
      p.2 = specItemQty (st.getTodayOrders rid day) p.1) ∧
    (c6TieStore.getTodayStats 1 0).popularItems = [("Beta", 2), ("Alpha", 2)] := by
  refine ⟨?_, ?_, ?_, ?_⟩
  · show ((sortByCountDesc (collectItemCounts (st.getTodayOrders rid day))).take 3).length ≤ 3
    rw [List.length_take]
    exact min_le_left _ _
  · show List.Pairwise _ ((sortByCountDesc (collectItemCounts (st.getTodayOrders rid day))).take 3)
    exact List.Pairwise.sublist (List.take_sublist 3 _) (sortByCountDesc_sorted _)
  · intro p hp
    have h1 : p ∈ sortByCountDesc (collectItemCounts (st.getTodayOrders rid day)) :=
      List.take_subset 3 _ hp
    have h2 : p ∈ collectItemCounts (st.getTodayOrders rid day) :=
      (sortByCountDesc_perm _).mem_iff.mp h1
    exact mem_collectItemCounts_val _ p h2
  · have horders : c6TieStore.getTodayOrders 1 0 = [c6TieOrder] := rfl
    have hcounts : collectItemCounts [c6TieOrder] = [("Beta", 2), ("Alpha", 2)] := by
      show [("Beta", (0 : ℚ) + 2), ("Alpha", (0 : ℚ) + 2)] = _
      norm_num
    have hsort : sortByCountDesc [("Beta", 2), ("Alpha", 2)]
        = [("Beta", (2 : ℚ)), ("Alpha", 2)] := by
      norm_num [sortByCountDesc, insertByCountDesc]
    have h1 : (c6TieStore.getTodayStats 1 0).popularItems
        = (sortByCountDesc (collectItemCounts (c6TieStore.getTodayOrders 1 0))).take 3 := rfl
    rw [h1, horders, hcounts, hsort]
    rfl

/-- Witness for C6's amended theorem: the "Beta" entry of the tie fixture
carries the summed quantity computed by `specItemQty`. -/
theorem getTodayStats_popularItems_spec_witness :
    (2 : ℚ) = specItemQty (c6TieStore.getTodayOrders 1 0) "Beta" :=
  (getTodayStats_popularItems_spec c6TieStore 1 0).2.2.1 ("Beta", 2)
    (by rw [(getTodayStats_popularItems_spec c6TieStore 1 0).2.2.2]; simp)

theorem hubRun_append (s : HubState) (t1 t2 : List HubStep) :
    hubRun s (t1 ++ t2) = hubRun (hubRun s t1) t2 := by
  induction t1 generalizing s with
  | nil => rfl
  | cons a t ih =>
    show hubRun (hubApply s a) (t ++ t2) = _
    rw [ih]
    rfl

theorem hubRun_delivered (tr : List HubStep) :
    ∀ s : HubState, (hubRun s tr).delivered = s.delivered ++ newDeliveries s tr := by
  induction tr with
  | nil => intro s; simp [hubRun, newDeliveries]
  | cons a t ih =>
    intro s
    show (hubRun (hubApply s a) t).delivered = _
    rw [ih]
    cases a <;> simp [hubApply, newDeliveries]

theorem mem_newDeliveries_publish (tr : List HubStep) (c : ℕ) (e : BMsg) :
    ∀ s : HubState, (c, e) ∈ newDeliveries s tr → HubStep.publish e ∈ tr := by
  induction tr with
  | nil => intro s h; simp [newDeliveries] at h
  | cons a t ih =>
    intro s h
    cases a with
    | publish e2 =>
      simp only [newDeliveries] at h
      rcases List.mem_append.mp h with h1 | h2
      · simp only [List.mem_map] at h1
        obtain ⟨c2, _, heq⟩ := h1
        have he : e2 = e := congrArg Prod.snd heq
        subst he
        exact List.mem_cons_self _ _
      · exact List.mem_cons_of_mem _ (ih _ h2)
    | register c2 =>
      simp only [newDeliveries, List.nil_append] at h
      exact List.mem_cons_of_mem _ (ih _ h)
    | deregister c2 =>
      simp only [newDeliveries, List.nil_append] at h
      exact List.mem_cons_of_mem _ (ih _ h)
    | setReady c2 b =>
      simp only [newDeliveries, List.nil_append] at h
      exact List.mem_cons_of_mem _ (ih _ h)

/-- C7: for any step sequence, an event published while channel A is
registered (and open) and channel B is not registered is delivered to A
and never to B — in particular B registering at any later step never
receives that past event, since the hub keeps no backlog and only
`publish` itself sends. -/
theorem broadcast_no_replay (s0 : HubState) (tr1 tr2 : List HubStep) (e : BMsg) (A B : ℕ)
    (hd : s0.delivered = [])
    (hA : A ∈ (hubRun s0 tr1).clients) (hAr : (hubRun s0 tr1).ready A = true)
    (hB : B ∉ (hubRun s0 tr1).clients)
    (h1 : HubStep.publish e ∉ tr1) (h2 : HubStep.publish e ∉ tr2) :
    (A, e) ∈ (hubRun s0 (tr1 ++ HubStep.publish e :: tr2)).delivered ∧
    (B, e) ∉ (hubRun s0 (tr1 ++ HubStep.publish e :: tr2)).delivered := by
  have hsplit : hubRun s0 (tr1 ++ HubStep.publish e :: tr2)
      = hubRun (hubApply (hubRun s0 tr1) (HubStep.publish e)) tr2 := by
    rw [hubRun_append]
    rfl
  have hpub : (hubApply (hubRun s0 tr1) (HubStep.publish e)).delivered
      = (hubRun s0 tr1).delivered
        ++ ((hubRun s0 tr1).clients.filter (hubRun s0 tr1).ready).map (fun c => (c, e)) := rfl
  rw [hsplit, hubRun_delivered, hpub]
  constructor
  · apply List.mem_append.mpr
    left
    apply List.mem_append.mpr
    right
    exact List.mem_map_of_mem _ (List.mem_filter.mpr ⟨hA, hAr⟩)
  · intro hmem
    rcases List.mem_append.mp hmem with hm1 | hm2
    · rcases List.mem_append.mp hm1 with hm3 | hm4
      · rw [hubRun_delivered, hd, List.nil_append] at hm3
        exact h1 (mem_newDeliveries_publish tr1 B e s0 hm3)
      · simp only [List.mem_map] at hm4
        obtain ⟨c2, hc2, heq⟩ := hm4
        have hcB : c2 = B := congrArg Prod.fst heq
        subst hcB
        exact hB (List.mem_filter.mp hc2).1
    · exact h2 (mem_newDeliveries_publish tr2 B e _ hm2)

/-- Witness for C7 at a concrete trace: A = 0 registers, the event is
published, then B = 1 registers; 0 received it, 1 did not. -/
theorem broadcast_no_replay_witness :
    (((0 : ℕ), ({ type := "NEW_ORDER", dataId := 1 } : BMsg))
        ∈ (hubRun hubInit
            ([HubStep.register 0] ++ HubStep.publish ⟨"NEW_ORDER", 1⟩
              :: [HubStep.register 1])).delivered) ∧
    (((1 : ℕ), ({ type := "NEW_ORDER", dataId := 1 } : BMsg))
        ∉ (hubRun hubInit
            ([HubStep.register 0] ++ HubStep.publish ⟨"NEW_ORDER", 1⟩
              :: [HubStep.register 1])).delivered) :=
  broadcast_no_replay hubInit [HubStep.register 0] [HubStep.register 1]
    ⟨"NEW_ORDER", 1⟩ 0 1 rfl (by decide) rfl (by decide) (by decide) (by decide)

end QrMenu
